import Mathlib

/-!
Shallow embedding of the PMM Magaiba market-making controller
(bots/controllers/market_making/pmm_magaiba.py) and verification of the
specification's claims about it.

Modelling conventions:
- Python Decimal and float values are modelled as rational numbers.
- Floating-point results that can be NaN or infinite (the unguarded z-score
  division in update_processed_data) are modelled by the type FloatV, an
  extension of the rationals with nan, inf and ninf following IEEE-754
  special-value propagation for the operations the code performs.
- The pandas standard deviation of the macd series is an irrational square
  root; it enters the computation as an explicit parameter sigma, and the
  predicate IsStd characterises it exactly (sigma is nonnegative and its
  square times (length - 1) is the sum of squared deviations, the ddof=1
  convention pandas uses).
- The indicator library pandas_ta is an external dependency (the spec treats
  it as an out-of-scope collaborator), so update_processed_data is embedded
  as a function of the indicator output series (natr in percent, the macd
  line and the macd histogram) together with the mid price.
- Taking the last element of a possibly empty series (pandas iloc[-1], which
  raises on an empty frame) is modelled with Option.
-/

namespace PMMMagaiba

/-- Trade side, mirroring hummingbot's TradeType as used by the controller. -/
inductive TradeType where
  | BUY : TradeType
  | SELL : TradeType
deriving DecidableEq, Repr

/-- Model of an IEEE-754 double restricted to the values the controller's
float pipeline can produce: an exact rational, nan, or a signed infinity. -/
inductive FloatV where
  | val : ℚ → FloatV
  | nan : FloatV
  | inf : FloatV
  | ninf : FloatV
deriving DecidableEq, Repr

namespace FloatV

/-- IEEE-754 addition on the model. -/
def add : FloatV → FloatV → FloatV
  | nan, _ => nan
  | _, nan => nan
  | val a, val b => val (a + b)
  | val _, inf => inf
  | inf, val _ => inf
  | inf, inf => inf
  | inf, ninf => nan
  | ninf, inf => nan
  | ninf, ninf => ninf
  | val _, ninf => ninf
  | ninf, val _ => ninf

/-- IEEE-754 multiplication on the model (sign rules for infinities,
zero times infinity is nan). -/
def mul : FloatV → FloatV → FloatV
  | nan, _ => nan
  | _, nan => nan
  | val a, val b => val (a * b)
  | val a, inf => if a = 0 then nan else if 0 < a then inf else ninf
  | inf, val b => if b = 0 then nan else if 0 < b then inf else ninf
  | val a, ninf => if a = 0 then nan else if 0 < a then ninf else inf
  | ninf, val b => if b = 0 then nan else if 0 < b then ninf else inf
  | inf, inf => inf
  | inf, ninf => ninf
  | ninf, inf => ninf
  | ninf, ninf => inf

/-- IEEE-754 division on the model: division of zero by zero is nan,
division of a nonzero rational by zero is a signed infinity. -/
def div : FloatV → FloatV → FloatV
  | nan, _ => nan
  | _, nan => nan
  | val a, val b =>
      if b = 0 then (if a = 0 then nan else if 0 < a then inf else ninf)
      else val (a / b)
  | val _, inf => val 0
  | val _, ninf => val 0
  | inf, val b => if 0 ≤ b then inf else ninf
  | ninf, val b => if 0 ≤ b then ninf else inf
  | inf, inf => nan
  | inf, ninf => nan
  | ninf, inf => nan
  | ninf, ninf => nan

end FloatV

/-- Arithmetic mean of a rational series (pandas Series.mean on a series
without missing values). The empty case never reaches the final output:
every use is guarded by a nonempty series downstream. -/
def mean (xs : List ℚ) : ℚ := xs.sum / xs.length

/-- Sum of squared deviations from the mean. -/
def sumSqDev (xs : List ℚ) : ℚ := (xs.map (fun x => (x - mean xs) ^ 2)).sum

/-- Characterisation of pandas Series.std with the default ddof = 1:
s is the nonnegative square root of sumSqDev xs / (length - 1). Stated
multiplicatively so everything stays rational. -/
def IsStd (xs : List ℚ) (s : ℚ) : Prop :=
  0 ≤ s ∧ s ^ 2 * ((xs.length : ℚ) - 1) = sumSqDev xs

instance (xs : List ℚ) (s : ℚ) : Decidable (IsStd xs s) := by
  unfold IsStd; infer_instance

/-- Inputs of update_processed_data coming from the external indicator
library and the market data provider: the natr series as returned by
pandas_ta (in percent), the macd line, the macd histogram, and the mid
price. The series share the candle index, hence their lengths agree. -/
structure SignalInput where
  natrPct : List ℚ
  macd : List ℚ
  macdh : List ℚ
  midPrice : ℚ
deriving DecidableEq, Repr

/-- The processed_data dictionary produced by update_processed_data.
The reference price is a FloatV because the unguarded z-score division can
inject nan; the spread multiplier is the last natr value, a plain rational. -/
structure ProcessedData where
  referencePrice : FloatV
  spreadMultiplier : ℚ
deriving DecidableEq, Repr

/-- Source line 143: natr = ta.natr(high, low, close, length) / 100. -/
def natrSeries (inp : SignalInput) : List ℚ :=
  inp.natrPct.map (fun x => x / 100)

/-- Source line 146: macd_signal = - (macd - macd.mean()) / macd.std().
Elementwise float arithmetic; the division is the one unguarded operation,
so the series lives in FloatV. The parameter s is the value of macd.std(). -/
def macdSignalSeries (macd : List ℚ) (s : ℚ) : List FloatV :=
  macd.map (fun x => FloatV.div (FloatV.val (-(x - mean macd))) (FloatV.val s))

/-- Source line 148: macdh_signal = macdh.apply(lambda x: 1 if x > 0 else -1). -/
def macdhSignalSeries (macdh : List ℚ) : List ℚ :=
  macdh.map (fun x => if 0 < x then 1 else -1)

/-- Source line 149: max_price_shift = natr / 2. -/
def maxPriceShift (inp : SignalInput) : List ℚ :=
  (natrSeries inp).map (fun x => x / 2)

/-- Source line 150, the series under iloc[-1]:
(0.5 * macd_signal + 0.5 * macdh_signal) * max_price_shift, elementwise. -/
def pmSeries (inp : SignalInput) (s : ℚ) : List FloatV :=
  List.zipWith (fun b m => FloatV.mul b (FloatV.val m))
    (List.zipWith
      (fun z h => FloatV.add (FloatV.mul (FloatV.val (1 / 2)) z) (FloatV.val ((1 / 2) * h)))
      (macdSignalSeries inp.macd s) (macdhSignalSeries inp.macdh))
    (maxPriceShift inp)

/-- Source line 150: price_multiplier is the last element of the blended
shift series; none models the IndexError pandas raises on an empty series. -/
def priceMultiplier (inp : SignalInput) (s : ℚ) : Option FloatV :=
  (pmSeries inp s).getLast?

/-- Source lines 138-155: the body of update_processed_data after the data
fetches, producing the processed_data dictionary. spread_multiplier is
natr.iloc[-1] (line 151) and reference_price is mid_price times
(1 + price_multiplier) (line 154). -/
def updateProcessedData (inp : SignalInput) (s : ℚ) : Option ProcessedData :=
  (priceMultiplier inp s).bind fun pm =>
    ((natrSeries inp).getLast?).map fun sm =>
      { referencePrice := FloatV.mul (FloatV.val inp.midPrice) (FloatV.add (FloatV.val 1) pm)
        spreadMultiplier := sm }

/-- Static controller configuration: the fields of
PMMMagaibaControllerConfig (and the base-class fields the controller
forwards) that the embedded operations read. -/
structure Config where
  macdFast : ℕ
  macdSlow : ℕ
  macdSignal : ℕ
  natrLength : ℕ
  dcaLevels : ℕ
  dcaSpreadScalar : ℚ
  dcaAmountRatioIncrement : ℚ
  connectorName : String
  tradingPair : String
  leverage : ℚ
  timeLimit : ℚ
  stopLoss : ℚ
  trailingStop : ℚ
  executorActivationBounds : Option (List ℚ)
deriving DecidableEq, Repr

/-- Source line 125: max_records = max(macd_slow, macd_fast, macd_signal,
natr_length) + 10. -/
def maxRecords (cfg : Config) : ℕ :=
  max (max (max cfg.macdSlow cfg.macdFast) cfg.macdSignal) cfg.natrLength + 10

/-- Modelled from the spec: Distributions.geometric of the hummingbot
library is not under src. Per the spec, the weights come from a geometric
progression with first term start and ratio ratio, one term per level. -/
def geometricDistribution (nLevels : ℕ) (start ratio : ℚ) : List ℚ :=
  (List.range nLevels).map (fun i => start * ratio ^ i)

/-- Source lines 126-128: the geometric amounts (start 1.0, ratio
dca_amount_ratio_increment) normalised by their sum. -/
def dcaAmountsPct (nLevels : ℕ) (ratio : ℚ) : List ℚ :=
  let d := geometricDistribution nLevels 1 ratio
  d.map (fun a => a / d.sum)

/-- The controller state read by get_executor_config: the static config,
the memoised weight list computed in the constructor, and the
processed_data of the current cycle. -/
structure ControllerState where
  config : Config
  dcaAmountsPct : List ℚ
  processedData : ProcessedData
deriving DecidableEq, Repr

/-- Source lines 123-128: the constructor's computation of the state
get_executor_config later reads (the candles-config branch only forwards
the fetch parameters and is out of scope). The processed_data argument
stands for the result of the latest update_processed_data cycle. -/
def initState (cfg : Config) (pd : ProcessedData) : ControllerState :=
  { config := cfg
    dcaAmountsPct := dcaAmountsPct cfg.dcaLevels cfg.dcaAmountRatioIncrement
    processedData := pd }

/-- Modelled from the spec: level ids come from the hummingbot base class
(not under src) and are strings of the form buy_N or sell_N, encoding the
trade side and a level index. The model keeps the two components directly. -/
structure LevelId where
  side : TradeType
  idx : ℕ
deriving DecidableEq, Repr

/-- Modelled from the spec: get_trade_type_from_level_id of the hummingbot
base class (not under src) decodes the trade side from the level id. -/
def tradeTypeFromLevelId (levelId : LevelId) : TradeType :=
  levelId.side

/-- The DCAExecutorConfig record built at source lines 166-179. -/
structure DCAExecutorConfig where
  timestamp : ℚ
  levelId : LevelId
  connectorName : String
  tradingPair : String
  prices : List ℚ
  amountsQuote : List ℚ
  leverage : ℚ
  side : TradeType
  timeLimit : ℚ
  stopLoss : ℚ
  trailingStop : ℚ
  activationBounds : Option (List ℚ)
deriving DecidableEq, Repr

/-- Source lines 157-179: get_executor_config. The now argument models the
time.time() call. The method writes nothing back to the controller, which
the explicit state-passing translation records by returning the state. -/
def getExecutorConfig (st : ControllerState) (levelId : LevelId) (price amount : ℚ)
    (now : ℚ) : ControllerState × DCAExecutorConfig :=
  let tradeType := tradeTypeFromLevelId levelId
  let sm := st.processedData.spreadMultiplier
  let prices :=
    if tradeType = TradeType.BUY then
      (List.range st.config.dcaLevels).map
        (fun n : ℕ => price * (1 - (n : ℚ) * st.config.dcaSpreadScalar * sm))
    else
      (List.range st.config.dcaLevels).map
        (fun n : ℕ => price * (1 + (n : ℚ) * st.config.dcaSpreadScalar * sm))
  let amountsQuote := List.zipWith (fun pct p => amount * pct * p) st.dcaAmountsPct prices
  (st,
    { timestamp := now
      levelId := levelId
      connectorName := st.config.connectorName
      tradingPair := st.config.tradingPair
      prices := prices
      amountsQuote := amountsQuote
      leverage := st.config.leverage
      side := tradeType
      timeLimit := st.config.timeLimit
      stopLoss := st.config.stopLoss
      trailingStop := st.config.trailingStop
      activationBounds := st.config.executorActivationBounds })

/-! ### Helper lemmas about the ladder generator -/

/-- The method returns the controller state unchanged: the source assigns
nothing to self inside get_executor_config. -/
theorem getExecutorConfig_fst (st : ControllerState) (levelId : LevelId)
    (price amount now : ℚ) :
    (getExecutorConfig st levelId price amount now).1 = st := rfl

/-- Closed form of the emitted price list: one price per level index,
with the sign of the offset selected by the trade side. -/
theorem getExecutorConfig_prices (st : ControllerState) (levelId : LevelId)
    (price amount now : ℚ) :
    (getExecutorConfig st levelId price amount now).2.prices =
      (List.range st.config.dcaLevels).map (fun k : ℕ =>
        if tradeTypeFromLevelId levelId = TradeType.BUY then
          price * (1 - (k : ℚ) * st.config.dcaSpreadScalar * st.processedData.spreadMultiplier)
        else
          price * (1 + (k : ℚ) * st.config.dcaSpreadScalar * st.processedData.spreadMultiplier)) := by
  by_cases h : tradeTypeFromLevelId levelId = TradeType.BUY <;>
    simp [getExecutorConfig, h]

/-- The emitted amount list pairs the memoised weights with the prices. -/
theorem getExecutorConfig_amountsQuote (st : ControllerState) (levelId : LevelId)
    (price amount now : ℚ) :
    (getExecutorConfig st levelId price amount now).2.amountsQuote =
      List.zipWith (fun pct p => amount * pct * p) st.dcaAmountsPct
        (getExecutorConfig st levelId price amount now).2.prices := rfl

theorem length_geometricDistribution (nLevels : ℕ) (start ratio : ℚ) :
    (geometricDistribution nLevels start ratio).length = nLevels := by
  simp [geometricDistribution]

theorem length_dcaAmountsPct (nLevels : ℕ) (ratio : ℚ) :
    (dcaAmountsPct nLevels ratio).length = nLevels := by
  simp [dcaAmountsPct, geometricDistribution]

/-- Entry n of the normalised weight list: ratio to the n, over the sum of
the geometric terms. -/
theorem dcaAmountsPct_getElem (nLevels : ℕ) (r : ℚ) (n : ℕ) (hn : n < nLevels) :
    (dcaAmountsPct nLevels r)[n]? =
      some (1 * r ^ n / (geometricDistribution nLevels 1 r).sum) := by
  simp [dcaAmountsPct, geometricDistribution, List.getElem?_map, List.getElem?_range hn]

/-- The sum of the raw geometric terms is positive for a positive ratio and
at least one level. -/
theorem geometricDistribution_sum_pos (nLevels : ℕ) (r : ℚ) (hr : 0 < r)
    (h1 : 1 ≤ nLevels) : 0 < (geometricDistribution nLevels 1 r).sum := by
  apply List.sum_pos
  · intro x hx
    simp only [geometricDistribution, List.mem_map, List.mem_range] at hx
    obtain ⟨i, _, rfl⟩ := hx
    have := pow_pos hr i
    linarith
  · intro hnil
    have := length_geometricDistribution nLevels 1 r
    rw [hnil] at this
    simp at this
    omega

/-- Every normalised weight is positive for a positive ratio. -/
theorem dcaAmountsPct_pos (nLevels : ℕ) (r : ℚ) (hr : 0 < r) (h1 : 1 ≤ nLevels)
    (w : ℚ) (hw : w ∈ dcaAmountsPct nLevels r) : 0 < w := by
  have hS := geometricDistribution_sum_pos nLevels r hr h1
  simp only [dcaAmountsPct, List.mem_map] at hw
  obtain ⟨x, hx, rfl⟩ := hw
  have hxpos : 0 < x := by
    simp only [geometricDistribution, List.mem_map, List.mem_range] at hx
    obtain ⟨i, _, rfl⟩ := hx
    have := pow_pos hr i
    linarith
  exact div_pos hxpos hS

/-- Sum of a series divided elementwise by a constant. -/
theorem sum_map_div (l : List ℚ) (c : ℚ) :
    (l.map (fun a => a / c)).sum = l.sum / c := by
  induction l with
  | nil => simp
  | cons x xs ih => simp [ih, add_div]

/-! ### Fixtures used in witnesses and counterexamples -/

/-- Fixture configuration matching the spec's worked ladder example: three
dca levels, spread scalar 2, geometric ratio 1. -/
def exCfg : Config :=
  { macdFast := 12, macdSlow := 26, macdSignal := 9, natrLength := 14,
    dcaLevels := 3, dcaSpreadScalar := 2, dcaAmountRatioIncrement := 1,
    connectorName := "binance", tradingPair := "ETH-USDT", leverage := 1,
    timeLimit := 60, stopLoss := 1 / 100, trailingStop := 1 / 100,
    executorActivationBounds := none }

/-- Fixture processed data with spread multiplier 0.01, as in the spec's
worked ladder example. -/
def exPd : ProcessedData :=
  { referencePrice := FloatV.val 100, spreadMultiplier := 1 / 100 }

/-! ### C1 -/

/-- C1: every call to get_executor_config emits the levels in index order
n = 0 .. dca_levels - 1 with price_n = price * (1 - n * spread_scalar *
spread_multiplier) on the buy side, price_n = price * (1 + n *
spread_scalar * spread_multiplier) on the sell side, and amount_quote_n =
amount * weights[n] * price_n; in particular the worked example (target
price 100, spread scalar 2, spread multiplier 0.01) gives the first three
buy prices 100, 98, 96. -/
theorem C1_theorem (cfg : Config) (pd : ProcessedData) (levelId : LevelId)
    (price amount now : ℚ) (n : ℕ) (hn : n < cfg.dcaLevels) :
    ((getExecutorConfig (initState cfg pd) levelId price amount now).2.prices.length
        = cfg.dcaLevels ∧
      (getExecutorConfig (initState cfg pd) levelId price amount now).2.prices[n]? =
        some (if tradeTypeFromLevelId levelId = TradeType.BUY then
            price * (1 - (n : ℚ) * cfg.dcaSpreadScalar * pd.spreadMultiplier)
          else
            price * (1 + (n : ℚ) * cfg.dcaSpreadScalar * pd.spreadMultiplier)) ∧
      (∃ w, (dcaAmountsPct cfg.dcaLevels cfg.dcaAmountRatioIncrement)[n]? = some w ∧
        (getExecutorConfig (initState cfg pd) levelId price amount now).2.amountsQuote[n]? =
          some (amount * w *
            (if tradeTypeFromLevelId levelId = TradeType.BUY then
              price * (1 - (n : ℚ) * cfg.dcaSpreadScalar * pd.spreadMultiplier)
            else
              price * (1 + (n : ℚ) * cfg.dcaSpreadScalar * pd.spreadMultiplier))))) ∧
    (getExecutorConfig (initState exCfg exPd) ⟨TradeType.BUY, 0⟩ 100 1 0).2.prices
      = [100, 98, 96] := by
  have hcfg : (initState cfg pd).config = cfg := rfl
  have hpd : (initState cfg pd).processedData = pd := rfl
  have hwts : (initState cfg pd).dcaAmountsPct
      = dcaAmountsPct cfg.dcaLevels cfg.dcaAmountRatioIncrement := rfl
  refine ⟨⟨?_, ?_, ?_⟩, ?_⟩
  · rw [getExecutorConfig_prices, hcfg, List.length_map, List.length_range]
  · rw [getExecutorConfig_prices, hcfg, hpd, List.getElem?_map,
      List.getElem?_range hn, Option.map_some']
  · refine ⟨1 * cfg.dcaAmountRatioIncrement ^ n /
        (geometricDistribution cfg.dcaLevels 1 cfg.dcaAmountRatioIncrement).sum,
      dcaAmountsPct_getElem _ _ _ hn, ?_⟩
    rw [getExecutorConfig_amountsQuote, List.getElem?_zipWith, getExecutorConfig_prices,
      hcfg, hpd, hwts, dcaAmountsPct_getElem _ _ _ hn, List.getElem?_map,
      List.getElem?_range hn, Option.map_some']
  · norm_num [getExecutorConfig, initState, tradeTypeFromLevelId, dcaAmountsPct,
      geometricDistribution, exCfg, exPd, List.range_succ]

/-- Witness for C1: the hypothesis holds at level index 1 of the worked
example, and the emitted price there is 98. -/
theorem C1_witness :
    1 < exCfg.dcaLevels ∧
    (getExecutorConfig (initState exCfg exPd) ⟨TradeType.BUY, 0⟩ 100 1 0).2.prices[1]? =
      some (if tradeTypeFromLevelId ⟨TradeType.BUY, 0⟩ = TradeType.BUY then
          100 * (1 - ((1 : ℕ) : ℚ) * exCfg.dcaSpreadScalar * exPd.spreadMultiplier)
        else
          100 * (1 + ((1 : ℕ) : ℚ) * exCfg.dcaSpreadScalar * exPd.spreadMultiplier)) :=
  ⟨by norm_num [exCfg],
    (C1_theorem exCfg exPd ⟨TradeType.BUY, 0⟩ 100 1 0 1 (by norm_num [exCfg])).1.2.1⟩

/-! ### C3 -/

/-- C3: for every level count at least 1 and positive growth ratio, the
normalised geometric weights sum to exactly 1 (hence within the 1e-9
tolerance of the claim), and for three levels with ratio 1 the weights are
1/3, 1/3, 1/3. -/
theorem C3_theorem (n : ℕ) (r : ℚ) (hn : 1 ≤ n) (hr : 0 < r) :
    (dcaAmountsPct n r).sum = 1 ∧
    dcaAmountsPct 3 1 = [1 / 3, 1 / 3, 1 / 3] := by
  constructor
  · have hS := geometricDistribution_sum_pos n r hr hn
    simp only [dcaAmountsPct]
    rw [sum_map_div, div_self (ne_of_gt hS)]
  · norm_num [dcaAmountsPct, geometricDistribution, List.range_succ]

/-- Witness for C3 at three levels with ratio 1. -/
theorem C3_witness :
    ((1 : ℕ) ≤ 3 ∧ (0 : ℚ) < 1) ∧ (dcaAmountsPct 3 1).sum = 1 :=
  ⟨⟨by norm_num, by norm_num⟩, (C3_theorem 3 1 (by norm_num) (by norm_num)).1⟩

/-! ### Further ladder fixtures and entry lemmas -/

/-- Fixture configuration with zero dca levels (an invalid level count per
the spec). -/
def exCfgZero : Config := { exCfg with dcaLevels := 0 }

/-- Fixture configuration with two dca levels, used where a large spread
pushes the second buy level past zero. -/
def exCfg2 : Config := { exCfg with dcaLevels := 2 }

/-- Fixture processed data with the extreme spread multiplier 1. -/
def exPdBig : ProcessedData :=
  { referencePrice := FloatV.val 100, spreadMultiplier := 1 }

/-- Entry n of the emitted price list in closed form. -/
theorem getExecutorConfig_prices_getElem (cfg : Config) (pd : ProcessedData)
    (levelId : LevelId) (price amount now : ℚ) (n : ℕ) (hn : n < cfg.dcaLevels) :
    (getExecutorConfig (initState cfg pd) levelId price amount now).2.prices[n]? =
      some (if tradeTypeFromLevelId levelId = TradeType.BUY then
          price * (1 - (n : ℚ) * cfg.dcaSpreadScalar * pd.spreadMultiplier)
        else
          price * (1 + (n : ℚ) * cfg.dcaSpreadScalar * pd.spreadMultiplier)) := by
  have hcfg : (initState cfg pd).config = cfg := rfl
  have hpd : (initState cfg pd).processedData = pd := rfl
  rw [getExecutorConfig_prices, hcfg, hpd, List.getElem?_map, List.getElem?_range hn,
    Option.map_some']

/-- Entry n of the emitted amount list in closed form. -/
theorem getExecutorConfig_amountsQuote_getElem (cfg : Config) (pd : ProcessedData)
    (levelId : LevelId) (price amount now : ℚ) (n : ℕ) (hn : n < cfg.dcaLevels) :
    (getExecutorConfig (initState cfg pd) levelId price amount now).2.amountsQuote[n]? =
      some (amount * (1 * cfg.dcaAmountRatioIncrement ^ n /
          (geometricDistribution cfg.dcaLevels 1 cfg.dcaAmountRatioIncrement).sum) *
        (if tradeTypeFromLevelId levelId = TradeType.BUY then
          price * (1 - (n : ℚ) * cfg.dcaSpreadScalar * pd.spreadMultiplier)
        else
          price * (1 + (n : ℚ) * cfg.dcaSpreadScalar * pd.spreadMultiplier))) := by
  have hcfg : (initState cfg pd).config = cfg := rfl
  have hpd : (initState cfg pd).processedData = pd := rfl
  have hwts : (initState cfg pd).dcaAmountsPct
      = dcaAmountsPct cfg.dcaLevels cfg.dcaAmountRatioIncrement := rfl
  rw [getExecutorConfig_amountsQuote, List.getElem?_zipWith, getExecutorConfig_prices,
    hcfg, hpd, hwts, dcaAmountsPct_getElem _ _ _ hn, List.getElem?_map,
    List.getElem?_range hn, Option.map_some']

/-! ### C7 -/

/-- C7 counterexample: an invalid configuration (level count 0, negative
target price and amount) is accepted without any failure; the constructor
produces an empty weight list and get_executor_config an empty ladder, so
no InvalidLadderConfig error is raised anywhere in the code. -/
theorem C7_counterexample :
    (initState exCfgZero exPd).dcaAmountsPct = [] ∧
    (getExecutorConfig (initState exCfgZero exPd) ⟨TradeType.BUY, 0⟩ (-5) (-1) 0).2.prices
      = [] ∧
    (getExecutorConfig (initState exCfgZero exPd) ⟨TradeType.BUY, 0⟩ (-5) (-1) 0).2.amountsQuote
      = [] := by
  refine ⟨rfl, ?_, ?_⟩ <;> rfl

/-- C7 amended: the code performs no ladder-config validation and defines
no InvalidLadderConfig error; a level count below 1 silently degenerates to
an empty ladder (and negative prices, amounts and ratios are accepted). -/
theorem C7_amended (cfg : Config) (pd : ProcessedData) (levelId : LevelId)
    (price amount now : ℚ) (h : cfg.dcaLevels = 0) :
    (getExecutorConfig (initState cfg pd) levelId price amount now).2.prices = [] ∧
    (getExecutorConfig (initState cfg pd) levelId price amount now).2.amountsQuote = [] := by
  have hcfg : (initState cfg pd).config = cfg := rfl
  constructor
  · rw [getExecutorConfig_prices, hcfg, h]
    rfl
  · rw [getExecutorConfig_amountsQuote, getExecutorConfig_prices, hcfg, h]
    simp

/-- Witness for the amended C7 at the zero-level fixture. -/
theorem C7_witness :
    exCfgZero.dcaLevels = 0 ∧
    (getExecutorConfig (initState exCfgZero exPd) ⟨TradeType.SELL, 0⟩ 100 1 0).2.prices
      = [] :=
  ⟨rfl, (C7_amended exCfgZero exPd ⟨TradeType.SELL, 0⟩ 100 1 0 rfl).1⟩

/-! ### C8 -/

/-- C8: when spread_scalar * spread_multiplier is positive, the buy price
sequence is non-increasing in the level index and the sell price sequence
is non-decreasing (target prices are nonnegative in the spec's domain:
negative target prices are rejected by its ladder validation). -/
theorem C8_theorem (cfg : Config) (pd : ProcessedData) (levelId : LevelId)
    (price amount now : ℚ) (i j : ℕ)
    (hprice : 0 ≤ price)
    (hpos : 0 < cfg.dcaSpreadScalar * pd.spreadMultiplier)
    (hij : i ≤ j) (hj : j < cfg.dcaLevels) :
    (tradeTypeFromLevelId levelId = TradeType.BUY →
      (getExecutorConfig (initState cfg pd) levelId price amount now).2.prices[j]?.getD 0
        ≤ (getExecutorConfig (initState cfg pd) levelId price amount now).2.prices[i]?.getD 0) ∧
    (tradeTypeFromLevelId levelId = TradeType.SELL →
      (getExecutorConfig (initState cfg pd) levelId price amount now).2.prices[i]?.getD 0
        ≤ (getExecutorConfig (initState cfg pd) levelId price amount now).2.prices[j]?.getD 0) := by
  have hi : i < cfg.dcaLevels := lt_of_le_of_lt hij hj
  have hk : (i : ℚ) ≤ (j : ℚ) := by exact_mod_cast hij
  have hkey : 0 ≤ price * (((j : ℚ) - (i : ℚ)) * (cfg.dcaSpreadScalar * pd.spreadMultiplier)) :=
    mul_nonneg hprice (mul_nonneg (by linarith) (le_of_lt hpos))
  constructor
  · intro h
    rw [getExecutorConfig_prices_getElem cfg pd levelId price amount now i hi,
      getExecutorConfig_prices_getElem cfg pd levelId price amount now j hj,
      if_pos h, if_pos h, Option.getD_some, Option.getD_some]
    nlinarith
  · intro h
    have hb : ¬ tradeTypeFromLevelId levelId = TradeType.BUY := by
      rw [h]; intro hc; cases hc
    rw [getExecutorConfig_prices_getElem cfg pd levelId price amount now i hi,
      getExecutorConfig_prices_getElem cfg pd levelId price amount now j hj,
      if_neg hb, if_neg hb, Option.getD_some, Option.getD_some]
    nlinarith

/-- Witness for C8: in the worked example the buy price of level 2 (96)
does not exceed the buy price of level 0 (100). -/
theorem C8_witness :
    (0 : ℚ) ≤ 100 ∧ 0 < exCfg.dcaSpreadScalar * exPd.spreadMultiplier ∧
    (0 : ℕ) ≤ 2 ∧ 2 < exCfg.dcaLevels ∧
    (tradeTypeFromLevelId ⟨TradeType.BUY, 0⟩ = TradeType.BUY →
      (getExecutorConfig (initState exCfg exPd) ⟨TradeType.BUY, 0⟩ 100 1 0).2.prices[2]?.getD 0
        ≤ (getExecutorConfig (initState exCfg exPd) ⟨TradeType.BUY, 0⟩ 100 1 0).2.prices[0]?.getD 0) :=
  ⟨by norm_num, by norm_num [exCfg, exPd], by norm_num, by norm_num [exCfg],
    (C8_theorem exCfg exPd ⟨TradeType.BUY, 0⟩ 100 1 0 0 2 (by norm_num)
      (by norm_num [exCfg, exPd]) (by norm_num) (by norm_num [exCfg])).1⟩

/-! ### C9 -/

/-- C9 counterexample: with two levels, spread scalar 2 and spread
multiplier 1 (all of the claim's preconditions hold: positive target
price, nonnegative amount, nonnegative scalar and multiplier, at least one
level), the second buy level has price -100 and amount-quote -50, violating
the OrderLevelSpec invariant the claim asserts. -/
theorem C9_counterexample :
    ((0 : ℚ) < 100 ∧ (0 : ℚ) ≤ 1 ∧ 0 ≤ exCfg2.dcaSpreadScalar ∧
      0 ≤ exPdBig.spreadMultiplier ∧ 1 ≤ exCfg2.dcaLevels) ∧
    (getExecutorConfig (initState exCfg2 exPdBig) ⟨TradeType.BUY, 0⟩ 100 1 0).2.prices[1]?
      = some ((-100 : ℚ)) ∧
    ¬ (0 : ℚ) < -100 ∧
    (getExecutorConfig (initState exCfg2 exPdBig) ⟨TradeType.BUY, 0⟩ 100 1 0).2.amountsQuote[1]?
      = some ((-50 : ℚ)) ∧
    ¬ (0 : ℚ) ≤ -50 := by
  norm_num [getExecutorConfig, initState, tradeTypeFromLevelId, dcaAmountsPct,
    geometricDistribution, exCfg2, exPdBig, exCfg, List.range_succ,
    List.getElem?_cons_succ, List.getElem?_cons_zero]

/-- C9 amended: under the spec preconditions together with a positive
amount-growth ratio and, on the buy side, a total relative offset
(level_count - 1) * spread_scalar * spread_multiplier strictly below 1,
every emitted level has a positive price and a nonnegative amount-quote
(the counterexample shows the bound is needed on the buy side; the sell
side needs no bound). -/
theorem C9_amended (cfg : Config) (pd : ProcessedData) (levelId : LevelId)
    (price amount now : ℚ) (n : ℕ)
    (hp : 0 < price) (ha : 0 ≤ amount)
    (hs : 0 ≤ cfg.dcaSpreadScalar) (hm : 0 ≤ pd.spreadMultiplier)
    (hr : 0 < cfg.dcaAmountRatioIncrement)
    (hn : n < cfg.dcaLevels)
    (hbound : tradeTypeFromLevelId levelId = TradeType.BUY →
      ((cfg.dcaLevels : ℚ) - 1) * (cfg.dcaSpreadScalar * pd.spreadMultiplier) < 1) :
    0 < (getExecutorConfig (initState cfg pd) levelId price amount now).2.prices[n]?.getD 0 ∧
    0 ≤ (getExecutorConfig (initState cfg pd) levelId price amount now).2.amountsQuote[n]?.getD 0 := by
  have hlev1 : 1 ≤ cfg.dcaLevels := by omega
  have hcast : (n : ℚ) ≤ (cfg.dcaLevels : ℚ) - 1 := by
    have h1 : (n : ℚ) + 1 ≤ (cfg.dcaLevels : ℚ) := by exact_mod_cast hn
    linarith
  have hsm : 0 ≤ cfg.dcaSpreadScalar * pd.spreadMultiplier := mul_nonneg hs hm
  have hpn : 0 < (if tradeTypeFromLevelId levelId = TradeType.BUY then
      price * (1 - (n : ℚ) * cfg.dcaSpreadScalar * pd.spreadMultiplier)
    else price * (1 + (n : ℚ) * cfg.dcaSpreadScalar * pd.spreadMultiplier)) := by
    by_cases h : tradeTypeFromLevelId levelId = TradeType.BUY
    · rw [if_pos h]
      have hb := hbound h
      have h1 : (n : ℚ) * (cfg.dcaSpreadScalar * pd.spreadMultiplier)
          ≤ ((cfg.dcaLevels : ℚ) - 1) * (cfg.dcaSpreadScalar * pd.spreadMultiplier) :=
        mul_le_mul_of_nonneg_right hcast hsm
      apply mul_pos hp
      nlinarith
    · rw [if_neg h]
      have h2 : 0 ≤ (n : ℚ) * cfg.dcaSpreadScalar * pd.spreadMultiplier :=
        mul_nonneg (mul_nonneg (Nat.cast_nonneg n) hs) hm
      apply mul_pos hp
      linarith
  constructor
  · rw [getExecutorConfig_prices_getElem cfg pd levelId price amount now n hn,
      Option.getD_some]
    exact hpn
  · rw [getExecutorConfig_amountsQuote_getElem cfg pd levelId price amount now n hn,
      Option.getD_some]
    have hw : 0 < 1 * cfg.dcaAmountRatioIncrement ^ n /
        (geometricDistribution cfg.dcaLevels 1 cfg.dcaAmountRatioIncrement).sum := by
      apply div_pos
      · have := pow_pos hr n
        linarith
      · exact geometricDistribution_sum_pos _ _ hr hlev1
    exact mul_nonneg (mul_nonneg ha (le_of_lt hw)) (le_of_lt hpn)

/-- Witness for the amended C9 at the worked example (buy side, level 2:
the total relative offset is 2 * 2 * 0.01 = 0.04 < 1). -/
theorem C9_witness :
    ((0 : ℚ) < 100 ∧ (0 : ℚ) ≤ 1 ∧ 0 ≤ exCfg.dcaSpreadScalar ∧
      0 ≤ exPd.spreadMultiplier ∧ 0 < exCfg.dcaAmountRatioIncrement ∧
      2 < exCfg.dcaLevels) ∧
    (0 : ℚ) < (getExecutorConfig (initState exCfg exPd) ⟨TradeType.BUY, 0⟩ 100 1 0).2.prices[2]?.getD 0 ∧
    (0 : ℚ) ≤ (getExecutorConfig (initState exCfg exPd) ⟨TradeType.BUY, 0⟩ 100 1 0).2.amountsQuote[2]?.getD 0 :=
  ⟨⟨by norm_num, by norm_num, by norm_num [exCfg], by norm_num [exPd],
      by norm_num [exCfg], by norm_num [exCfg]⟩,
    C9_amended exCfg exPd ⟨TradeType.BUY, 0⟩ 100 1 0 2 (by norm_num) (by norm_num)
      (by norm_num [exCfg]) (by norm_num [exPd]) (by norm_num [exCfg]) (by norm_num [exCfg])
      (by intro h; norm_num [exCfg, exPd])⟩

/-! ### C10 -/

/-- C10: get_executor_config is deterministic up to the timestamp and has
no side effects: two calls with the same level id, price and amount on the
same state (same configuration and processed data) agree on every output
field except the timestamp, and both leave the state unchanged. -/
theorem C10_theorem (st : ControllerState) (levelId : LevelId)
    (price amount t1 t2 : ℚ) :
    (getExecutorConfig st levelId price amount t1).1 = st ∧
    (getExecutorConfig st levelId price amount t2).1 = st ∧
    (getExecutorConfig st levelId price amount t1).2.levelId
      = (getExecutorConfig st levelId price amount t2).2.levelId ∧
    (getExecutorConfig st levelId price amount t1).2.connectorName
      = (getExecutorConfig st levelId price amount t2).2.connectorName ∧
    (getExecutorConfig st levelId price amount t1).2.tradingPair
      = (getExecutorConfig st levelId price amount t2).2.tradingPair ∧
    (getExecutorConfig st levelId price amount t1).2.prices
      = (getExecutorConfig st levelId price amount t2).2.prices ∧
    (getExecutorConfig st levelId price amount t1).2.amountsQuote
      = (getExecutorConfig st levelId price amount t2).2.amountsQuote ∧
    (getExecutorConfig st levelId price amount t1).2.leverage
      = (getExecutorConfig st levelId price amount t2).2.leverage ∧
    (getExecutorConfig st levelId price amount t1).2.side
      = (getExecutorConfig st levelId price amount t2).2.side ∧
    (getExecutorConfig st levelId price amount t1).2.timeLimit
      = (getExecutorConfig st levelId price amount t2).2.timeLimit ∧
    (getExecutorConfig st levelId price amount t1).2.stopLoss
      = (getExecutorConfig st levelId price amount t2).2.stopLoss ∧
    (getExecutorConfig st levelId price amount t1).2.trailingStop
      = (getExecutorConfig st levelId price amount t2).2.trailingStop ∧
    (getExecutorConfig st levelId price amount t1).2.activationBounds
      = (getExecutorConfig st levelId price amount t2).2.activationBounds ∧
    (getExecutorConfig st levelId price amount t1).2.timestamp = t1 ∧
    (getExecutorConfig st levelId price amount t2).2.timestamp = t2 :=
  ⟨rfl, rfl, rfl, rfl, rfl, rfl, rfl, rfl, rfl, rfl, rfl, rfl, rfl, rfl, rfl⟩

/-! ### Spec-side rendering of the signal processor

These definitions follow the wording of spec section 4.1 step by step and
exist only to be compared with the source-side updateProcessedData in the
refinement claim C2. They take the natr series already expressed as a
fraction, as the spec words do. -/

/-- Spec words, step 3: momentum_z = -(macd - mean(macd)) / stddev(macd),
with sigma standing for stddev(macd). -/
def specMomentumZ (macd : List ℚ) (sigma : ℚ) : List FloatV :=
  macd.map (fun x => FloatV.div (FloatV.val (-(x - mean macd))) (FloatV.val sigma))

/-- Spec words, step 4: trend_direction is +1 where the histogram is
positive and -1 otherwise. -/
def specTrendDirection (hist : List ℚ) : List ℚ :=
  hist.map (fun x => if 0 < x then 1 else -1)

/-- Spec words, step 5: blended_signal = 0.5 * momentum_z +
0.5 * trend_direction. -/
def specBlendedSignal (z : List FloatV) (t : List ℚ) : List FloatV :=
  List.zipWith (fun zv tv =>
    FloatV.add (FloatV.mul (FloatV.val (1 / 2)) zv)
      (FloatV.mul (FloatV.val (1 / 2)) (FloatV.val tv))) z t

/-- Spec words, step 6: max_price_shift = natr / 2. -/
def specMaxPriceShift (natrFrac : List ℚ) : List ℚ :=
  natrFrac.map (fun x => x / 2)

/-- Spec words, step 7: price_multiplier = last(blended_signal *
max_price_shift). -/
def specPriceMultiplier (natrFrac macd hist : List ℚ) (sigma : ℚ) : Option FloatV :=
  (List.zipWith (fun b m => FloatV.mul b (FloatV.val m))
    (specBlendedSignal (specMomentumZ macd sigma) (specTrendDirection hist))
    (specMaxPriceShift natrFrac)).getLast?

/-- Spec words, steps 8 and 9: reference_price = mid_price * (1 +
price_multiplier) and spread_multiplier = last(natr). -/
def specSignalOutput (natrFrac macd hist : List ℚ) (sigma mid : ℚ) : Option ProcessedData :=
  (specPriceMultiplier natrFrac macd hist sigma).bind fun pm =>
    (natrFrac.getLast?).map fun sm =>
      { referencePrice := FloatV.mul (FloatV.val mid) (FloatV.add (FloatV.val 1) pm)
        spreadMultiplier := sm }

/-! ### Signal fixtures and helper lemmas -/

/-- Fixture signal input: three candles, macd 0, 1, 2 (whose standard
deviation is exactly 1), natr 2 percent throughout, positive histogram,
mid price 100. -/
def exInp : SignalInput :=
  { natrPct := [2, 2, 2], macd := [0, 1, 2], macdh := [1, 1, 1], midPrice := 100 }

/-- Fixture signal input with a flat macd series (constant 5), for which
the standard deviation is exactly 0. -/
def exInpFlat : SignalInput :=
  { natrPct := [2, 2, 2], macd := [5, 5, 5], macdh := [1, 1, 1], midPrice := 100 }

/-- Fixture signal input whose upstream volatility series is negative. -/
def exInpNeg : SignalInput :=
  { natrPct := [-5, -5, -5], macd := [0, 1, 2], macdh := [1, 1, 1], midPrice := 100 }

/-- Decomposition of membership in a zipWith. -/
theorem zipWith_mem_decomp {α β γ : Type} {f : α → β → γ} {c : γ} :
    ∀ {as : List α} {bs : List β}, c ∈ List.zipWith f as bs →
      ∃ a ∈ as, ∃ b ∈ bs, c = f a b
  | a :: as, b :: bs, h => by
      rcases List.mem_cons.mp h with h | h
      · exact ⟨a, List.mem_cons_self a as, b, List.mem_cons_self b bs, h⟩
      · obtain ⟨a1, ha, b1, hb, rfl⟩ := zipWith_mem_decomp h
        exact ⟨a1, List.mem_cons_of_mem a ha, b1, List.mem_cons_of_mem b hb, rfl⟩

/-- The mean of a nonempty constant series is the constant. -/
theorem mean_const (xs : List ℚ) (c : ℚ) (h : ∀ x ∈ xs, x = c) (hne : xs ≠ []) :
    mean xs = c := by
  have hsum : xs.sum = xs.length • c := List.sum_eq_card_nsmul xs c h
  have hl : (xs.length : ℚ) ≠ 0 := by
    have hp := List.length_pos.mpr hne
    exact_mod_cast Nat.pos_iff_ne_zero.mp hp
  rw [mean, hsum, nsmul_eq_mul, mul_comm, mul_div_assoc, div_self hl, mul_one]

/-- A flat series has zero sum of squared deviations. -/
theorem sumSqDev_flat (xs : List ℚ) (c : ℚ) (h : ∀ x ∈ xs, x = c) (hne : xs ≠ []) :
    sumSqDev xs = 0 := by
  apply List.sum_eq_zero
  intro y hy
  simp only [List.mem_map] at hy
  obtain ⟨x, hx, rfl⟩ := hy
  rw [h x hx, mean_const xs c h hne]
  ring

/-- The length of the blended shift series is the candle count when the
three indicator series are index-aligned. -/
theorem pmSeries_length (inp : SignalInput) (sigma : ℚ)
    (hmacd : inp.macd.length = inp.natrPct.length)
    (hmacdh : inp.macdh.length = inp.natrPct.length) :
    (pmSeries inp sigma).length = inp.natrPct.length := by
  simp [pmSeries, macdSignalSeries, macdhSignalSeries, maxPriceShift, natrSeries,
    List.length_zipWith, hmacd, hmacdh]

/-! ### C2 -/

/-- C2: update_processed_data implements the spec's pipeline exactly:
reference_price = mid_price * (1 + price_multiplier) where
price_multiplier is the last element of (0.5 * momentum_z + 0.5 *
trend_direction) * (natr / 2), momentum_z = -(macd - mean(macd)) /
stddev(macd), trend_direction is +1 where the macd histogram is positive
and -1 otherwise, and spread_multiplier is the last value of the natr
series expressed as a fraction (the percent series divided by 100). -/
theorem C2_theorem (inp : SignalInput) (sigma : ℚ)
    (_hstd : IsStd inp.macd sigma) :
    updateProcessedData inp sigma =
      specSignalOutput (inp.natrPct.map (fun x => x / 100)) inp.macd inp.macdh
        sigma inp.midPrice := rfl

/-- Witness for C2 at the three-candle fixture, whose macd standard
deviation is exactly 1. -/
theorem C2_witness :
    IsStd exInp.macd 1 ∧
    updateProcessedData exInp 1 =
      specSignalOutput (exInp.natrPct.map (fun x => x / 100)) exInp.macd exInp.macdh
        1 exInp.midPrice := by
  have hstd : IsStd exInp.macd 1 := by
    constructor
    · norm_num
    · norm_num [sumSqDev, mean, exInp]
  exact ⟨hstd, C2_theorem exInp 1 hstd⟩

/-! ### C4 -/

/-- C4 counterexample: a three-candle history is far below the required
lookback max(26, 12, 9, 14) + 10 = 36 of the default configuration, yet
the signal computation fails with nothing: it returns an ordinary
processed-data value, so no InsufficientHistory error is raised below the
threshold (the code contains no such error). -/
theorem C4_counterexample :
    maxRecords exCfg = 36 ∧
    exInp.natrPct.length = 3 ∧
    exInp.natrPct.length < maxRecords exCfg ∧
    updateProcessedData exInp 1 =
      some { referencePrice := FloatV.val 100, spreadMultiplier := 1 / 50 } := by
  refine ⟨rfl, rfl, by norm_num [maxRecords, exCfg, exInp], ?_⟩
  norm_num [updateProcessedData, priceMultiplier, pmSeries, macdSignalSeries,
    macdhSignalSeries, maxPriceShift, natrSeries, mean, exInp, FloatV.div,
    FloatV.mul, FloatV.add, List.getLast?]

/-- C4 amended: the controller computes max(macd_slow, macd_fast,
macd_signal, natr_length) + 10 only as the size of the candle request; the
signal computation itself performs no candle-count check and raises no
InsufficientHistory error: for every nonempty index-aligned input of any
length it returns a processed-data value. -/
theorem C4_amended (cfg : Config) (inp : SignalInput) (sigma : ℚ)
    (hne : inp.natrPct ≠ [])
    (hmacd : inp.macd.length = inp.natrPct.length)
    (hmacdh : inp.macdh.length = inp.natrPct.length) :
    maxRecords cfg = max (max (max cfg.macdSlow cfg.macdFast) cfg.macdSignal)
      cfg.natrLength + 10 ∧
    ∃ r, updateProcessedData inp sigma = some r := by
  refine ⟨rfl, ?_⟩
  have hlen := pmSeries_length inp sigma hmacd hmacdh
  have hpm_ne : pmSeries inp sigma ≠ [] := by
    intro h
    rw [h] at hlen
    exact hne (List.length_eq_zero.mp hlen.symm)
  obtain ⟨pm, hpm⟩ := Option.isSome_iff_exists.mp (List.getLast?_isSome.mpr hpm_ne)
  have hnatr_ne : natrSeries inp ≠ [] := by
    simp [natrSeries, hne]
  obtain ⟨sm, hsm⟩ := Option.isSome_iff_exists.mp (List.getLast?_isSome.mpr hnatr_ne)
  refine ⟨⟨FloatV.mul (FloatV.val inp.midPrice) (FloatV.add (FloatV.val 1) pm), sm⟩, ?_⟩
  unfold updateProcessedData priceMultiplier
  rw [hpm, hsm]
  rfl

/-- Witness for the amended C4 at the three-candle fixture. -/
theorem C4_witness :
    exInp.natrPct ≠ [] ∧ ∃ r, updateProcessedData exInp 1 = some r :=
  ⟨by simp [exInp], (C4_amended exCfg exInp 1 (by simp [exInp]) rfl rfl).2⟩

/-! ### C5 -/

/-- C5 counterexample: on the degenerate flat history the standard
deviation is 0, the z-score division produces nan and the nan propagates:
the price multiplier is nan, not the claimed 0, and reference_price is
nan too. -/
theorem C5_counterexample :
    IsStd exInpFlat.macd 0 ∧
    priceMultiplier exInpFlat 0 = some FloatV.nan ∧
    some FloatV.nan ≠ some (FloatV.val 0) ∧
    updateProcessedData exInpFlat 0 =
      some { referencePrice := FloatV.nan, spreadMultiplier := 1 / 50 } := by
  refine ⟨⟨le_refl 0, by norm_num [sumSqDev, mean, exInpFlat]⟩, ?_, by simp, ?_⟩
  · norm_num [priceMultiplier, pmSeries, macdSignalSeries, macdhSignalSeries,
      maxPriceShift, natrSeries, mean, exInpFlat, FloatV.div, FloatV.mul,
      FloatV.add, List.getLast?]
  · norm_num [updateProcessedData, priceMultiplier, pmSeries, macdSignalSeries,
      macdhSignalSeries, maxPriceShift, natrSeries, mean, exInpFlat, FloatV.div,
      FloatV.mul, FloatV.add, List.getLast?]

/-- C5 amended: whenever the macd series is constant its standard
deviation is 0, the unguarded z-score division yields nan, and the nan
propagates instead of being absorbed: the price multiplier is nan and so
is the resulting reference price; no exception is raised. -/
theorem C5_amended (inp : SignalInput) (c : ℚ)
    (hflat : ∀ x ∈ inp.macd, x = c)
    (hne : inp.natrPct ≠ [])
    (hmacd : inp.macd.length = inp.natrPct.length)
    (hmacdh : inp.macdh.length = inp.natrPct.length) :
    IsStd inp.macd 0 ∧
    priceMultiplier inp 0 = some FloatV.nan ∧
    ∃ r, updateProcessedData inp 0 = some r ∧ r.referencePrice = FloatV.nan := by
  have hmacd_ne : inp.macd ≠ [] := by
    intro h
    apply hne
    rw [h] at hmacd
    exact (List.length_eq_zero.mp hmacd.symm)
  have hstd : IsStd inp.macd 0 := by
    refine ⟨le_refl 0, ?_⟩
    rw [sumSqDev_flat inp.macd c hflat hmacd_ne]
    ring
  have hall : ∀ y ∈ pmSeries inp 0, y = FloatV.nan := by
    intro y hy
    obtain ⟨b, hb, m, _, rfl⟩ := zipWith_mem_decomp hy
    obtain ⟨z, hz, t, _, rfl⟩ := zipWith_mem_decomp hb
    simp only [macdSignalSeries, List.mem_map] at hz
    obtain ⟨x, hx, rfl⟩ := hz
    rw [hflat x hx, mean_const inp.macd c hflat hmacd_ne]
    simp [FloatV.div, FloatV.mul, FloatV.add]
  have hlen := pmSeries_length inp 0 hmacd hmacdh
  have hpm_ne : pmSeries inp 0 ≠ [] := by
    intro h
    rw [h] at hlen
    exact hne (List.length_eq_zero.mp hlen.symm)
  obtain ⟨pm, hpm⟩ := Option.isSome_iff_exists.mp (List.getLast?_isSome.mpr hpm_ne)
  have hpm_nan : pm = FloatV.nan := hall pm (List.mem_of_getLast?_eq_some hpm)
  have hpmn : priceMultiplier inp 0 = some FloatV.nan := by
    rw [priceMultiplier, hpm, hpm_nan]
  have hnatr_ne : natrSeries inp ≠ [] := by
    simp [natrSeries, hne]
  obtain ⟨sm, hsm⟩ := Option.isSome_iff_exists.mp (List.getLast?_isSome.mpr hnatr_ne)
  refine ⟨hstd, hpmn,
    ⟨⟨FloatV.mul (FloatV.val inp.midPrice) (FloatV.add (FloatV.val 1) FloatV.nan), sm⟩, ?_, ?_⟩⟩
  · unfold updateProcessedData
    rw [hpmn, hsm]
    rfl
  · simp [FloatV.mul, FloatV.add]

/-- Witness for the amended C5 at the flat fixture. -/
theorem C5_witness :
    (∀ x ∈ exInpFlat.macd, x = 5) ∧
    priceMultiplier exInpFlat 0 = some FloatV.nan :=
  ⟨by intro x hx; simp [exInpFlat] at hx; exact hx,
    (C5_amended exInpFlat 5
      (by intro x hx; simp [exInpFlat] at hx; exact hx)
      (by simp [exInpFlat]) rfl rfl).2.1⟩

/-! ### C6 -/

/-- C6 counterexample: a negative upstream volatility value is not
rejected: no InvalidIndicatorOutput error exists, update_processed_data
returns normally and emits the negative spread multiplier -1/20. -/
theorem C6_counterexample :
    IsStd exInpNeg.macd 1 ∧
    updateProcessedData exInpNeg 1 =
      some { referencePrice := FloatV.val 100, spreadMultiplier := -(1 / 20) } ∧
    (-(1 / 20) : ℚ) < 0 := by
  refine ⟨⟨by norm_num, by norm_num [sumSqDev, mean, exInpNeg]⟩, ?_, by norm_num⟩
  norm_num [updateProcessedData, priceMultiplier, pmSeries, macdSignalSeries,
    macdhSignalSeries, maxPriceShift, natrSeries, mean, exInpNeg, FloatV.div,
    FloatV.mul, FloatV.add, List.getLast?]

/-- C6 amended: for a non-negative upstream volatility series the emitted
spread multiplier is nonnegative; negative upstream values, however, are
not rejected with an InvalidIndicatorOutput error but flow through to a
negative spread multiplier (see the counterexample). -/
theorem C6_amended (inp : SignalInput) (sigma : ℚ) (r : ProcessedData)
    (hnn : ∀ x ∈ inp.natrPct, 0 ≤ x)
    (hr : updateProcessedData inp sigma = some r) :
    0 ≤ r.spreadMultiplier := by
  simp only [updateProcessedData] at hr
  cases hpm : priceMultiplier inp sigma with
  | none =>
      rw [hpm] at hr
      simp at hr
  | some pm =>
      rw [hpm] at hr
      cases hsm : (natrSeries inp).getLast? with
      | none =>
          rw [hsm] at hr
          simp at hr
      | some sm =>
          rw [hsm] at hr
          simp only [Option.some_bind, Option.map_some'] at hr
          have hmem : sm ∈ natrSeries inp := List.mem_of_getLast?_eq_some hsm
          simp only [natrSeries, List.mem_map] at hmem
          obtain ⟨x, hx, rfl⟩ := hmem
          have hx0 := hnn x hx
          have hrr : r.spreadMultiplier = x / 100 := by
            rw [← Option.some_inj.mp hr]
          rw [hrr]
          exact div_nonneg hx0 (by norm_num)

/-- Witness for the amended C6 at the three-candle fixture with
non-negative volatility. -/
theorem C6_witness :
    (∀ x ∈ exInp.natrPct, (0 : ℚ) ≤ x) ∧
    (0 : ℚ) ≤ (1 / 50 : ℚ) := by
  have hnn : ∀ x ∈ exInp.natrPct, (0 : ℚ) ≤ x := by
    intro x hx
    simp [exInp] at hx
    rw [hx]
    norm_num
  have hconc : updateProcessedData exInp 1 =
      some { referencePrice := FloatV.val 100, spreadMultiplier := 1 / 50 } := by
    norm_num [updateProcessedData, priceMultiplier, pmSeries, macdSignalSeries,
      macdhSignalSeries, maxPriceShift, natrSeries, mean, exInp, FloatV.div,
      FloatV.mul, FloatV.add, List.getLast?]
  exact ⟨hnn, C6_amended exInp 1 _ hnn hconc⟩

end PMMMagaiba
